import Mathlib

/-!
Shallow embedding of the todo-api backend (services, query engine, auth)
and proofs of the specification claims about it.

Sources embedded:
- src/src/types/constants.ts, src/src/types/errors.ts (taxonomy, constants)
- src/src/services/TodoService.ts (revision with the sort-field allow-list)
- src/unnamed/part_008 (TodoService revision with search support)
- src/src/utils/validation.ts (mappers section: createPaginatedResponse)
- src/src/utils/jwt.ts (token wrappers over the jsonwebtoken primitive)
- src/unnamed/part_007 (AuthService), src/unnamed/part_009 (UserService,
  revision throwing ConflictError on duplicate email)

Scalar modelling conventions: ids, emails and titles are `String`;
timestamps are `Nat`; `page`/`limit` query parameters are carried as already
parsed integers (`Option Int`), the route-level `parseInt` of the raw query
string being elided; nullable database columns are `Option`-valued.
-/

namespace TodoApi

/-- PRIORITY_LEVELS from src/src/types/constants.ts: LOW, MEDIUM, HIGH. -/
inductive Priority where
  | LOW
  | MEDIUM
  | HIGH
deriving DecidableEq

/-- Position of a priority in the database enum declaration order
(`priority_enum AS ENUM ('LOW','MEDIUM','HIGH')`), which is the order the
database uses when sorting the column. -/
def Priority.val : Priority → Nat
  | .LOW => 0
  | .MEDIUM => 1
  | .HIGH => 2

/-- isValidPriority from src/src/types/guards.ts: membership of a string in
PRIORITY_LEVELS, returned here as the parsed priority (some iff valid). -/
def Priority.ofString : String → Option Priority
  | "LOW" => some .LOW
  | "MEDIUM" => some .MEDIUM
  | "HIGH" => some .HIGH
  | _ => none

/-- SORT_ORDERS from src/src/types/constants.ts. -/
inductive SortOrder where
  | asc
  | desc
deriving DecidableEq

/-- TODO_SORT_FIELDS from src/src/types/constants.ts (also the `sortBy`
enum of todoQuerySchema in src/src/utils/validation.ts). -/
inductive TodoSortField where
  | createdAt
  | updatedAt
  | dueDate
  | priority
  | title
deriving DecidableEq

/-- The Todo database entity (src/unnamed/part_002, matching the Prisma
schema): nullable description and due date, owning user id. -/
structure Todo where
  id : String
  title : String
  description : Option String
  completed : Bool
  priority : Priority
  dueDate : Option Nat
  createdAt : Nat
  updatedAt : Nat
  userId : String
deriving DecidableEq

/-- The User database entity (src/unnamed/part_002). -/
structure User where
  id : String
  email : String
  password : String
  name : Option String
  createdAt : Nat
  updatedAt : Nat
deriving DecidableEq

/-- The error taxonomy of src/src/types/errors.ts, one constructor per
AppError subclass, each carrying its constructor argument. -/
inductive AppError where
  | validationError (msg : String)
  | authenticationError (msg : String)
  | authorizationError (msg : String)
  | notFoundError (resource : String)
  | conflictError (msg : String)
  | databaseError (msg : String)
deriving DecidableEq

/-- The HTTP status attached by each AppError subclass constructor
(HTTP_STATUS values in src/src/types/errors.ts). -/
def AppError.statusCode : AppError → Nat
  | .validationError _ => 400
  | .authenticationError _ => 401
  | .authorizationError _ => 403
  | .notFoundError _ => 404
  | .conflictError _ => 409
  | .databaseError _ => 500

namespace PAGINATION

/-- PAGINATION.DEFAULT_PAGE from src/src/types/constants.ts. -/
def DEFAULT_PAGE : Int := 1

/-- PAGINATION.DEFAULT_LIMIT from src/src/types/constants.ts. -/
def DEFAULT_LIMIT : Int := 10

/-- PAGINATION.MAX_LIMIT from src/src/types/constants.ts. -/
def MAX_LIMIT : Int := 100

end PAGINATION

/-- TodoQueryParams (src/unnamed/part_004 / part_005): the query-string
parameters of GET /todos. `completed`, `priority` and `search` arrive as raw
strings; `sortBy`/`sortOrder` are typed by the todoQuerySchema enums;
`page`/`limit` are carried as parsed integers (route parseInt elided). -/
structure TodoQueryParams where
  completed : Option String := none
  priority : Option String := none
  search : Option String := none
  sortBy : Option TodoSortField := none
  sortOrder : Option SortOrder := none
  page : Option Int := none
  limit : Option Int := none

/-- The effective page number of getTodos:
`parseInt(params.page || '1', 10)` — the requested page, defaulting to
PAGINATION.DEFAULT_PAGE when absent. -/
def effectivePage (p : Option Int) : Int :=
  p.getD PAGINATION.DEFAULT_PAGE

/-- The effective page size of getTodos:
`Math.min(parseInt(params.limit || '10', 10), 100)` — the requested limit,
defaulting to PAGINATION.DEFAULT_LIMIT when absent, capped above at
PAGINATION.MAX_LIMIT.  There is no cap from below. -/
def effectiveLimit (l : Option Int) : Int :=
  min (l.getD PAGINATION.DEFAULT_LIMIT) PAGINATION.MAX_LIMIT

/-! ### Database ordering model

Prisma hands the `orderBy` array to the database; the result set is the
matching rows ordered lexicographically by the listed (column, direction)
keys.  We model a sort key as a column/direction pair, give each column its
comparison (Postgres defaults: booleans false-before-true, NULLS LAST on
ascending nullable columns and NULLS FIRST on descending ones, enum columns
in declaration order), and model the ordered result as an insertion sort by
the induced lexicographic comparator. -/

/-- Columns that can appear in an orderBy entry of the embedded services. -/
inductive SortColumn where
  | createdAt
  | updatedAt
  | dueDate
  | priority
  | title
  | completed
deriving DecidableEq

/-- One entry of a Prisma `orderBy` array: a column and a direction. -/
abbrev OrderKey := SortColumn × SortOrder

/-- Three-way comparison induced by a linear order. -/
def cmpOfLt {κ : Type} [LinearOrder κ] (x y : κ) : Ordering :=
  if x < y then .lt else if y < x then .gt else .eq

/-- Sort key of a nullable column under ascending order with NULLS LAST:
present values in order, null after every value. -/
def nullsLastKey (v : Option Nat) : Lex (Nat × Nat) :=
  match v with
  | some n => toLex (0, n)
  | none => toLex (1, 0)

/-- Ascending comparison of two rows on one column. -/
def cmpColumn (c : SortColumn) (a b : Todo) : Ordering :=
  match c with
  | .createdAt => cmpOfLt a.createdAt b.createdAt
  | .updatedAt => cmpOfLt a.updatedAt b.updatedAt
  | .dueDate => cmpOfLt (nullsLastKey a.dueDate) (nullsLastKey b.dueDate)
  | .priority => cmpOfLt a.priority.val b.priority.val
  | .title => cmpOfLt a.title b.title
  | .completed => cmpOfLt a.completed b.completed

/-- Comparison of two rows on one orderBy entry; descending order is the
reversal of ascending order (for nullable columns this is Postgres
DESC NULLS FIRST, the exact reversal of ASC NULLS LAST). -/
def cmpKey (k : OrderKey) (a b : Todo) : Ordering :=
  match k.2 with
  | .asc => cmpColumn k.1 a b
  | .desc => (cmpColumn k.1 a b).swap

/-- Lexicographic comparison of two rows on an orderBy array: earlier
entries are more significant. -/
def cmpChain (ks : List OrderKey) (a b : Todo) : Ordering :=
  match ks with
  | [] => .eq
  | k :: rest => (cmpKey k a b).then (cmpChain rest a b)

/-- The non-strict row order induced by an orderBy array. -/
def chainLe (ks : List OrderKey) (a b : Todo) : Prop :=
  cmpChain ks a b ≠ .gt

instance (ks : List OrderKey) : DecidableRel (chainLe ks) := by
  intro a b
  unfold chainLe
  infer_instance

/-- The ordered result set for an orderBy array: the rows sorted by the
induced lexicographic order (the database's ORDER BY). -/
def applyOrderBy (ks : List OrderKey) (l : List Todo) : List Todo :=
  l.insertionSort (chainLe ks)

/-- A comparator that behaves like the comparison of a total preorder:
swapping the arguments swaps the outcome, and the lt/eq outcomes compose
transitively. -/
structure LawfulCmp (c : Todo → Todo → Ordering) : Prop where
  swap_eq : ∀ a b, c a b = (c b a).swap
  lt_lt : ∀ a b d, c a b = .lt → c b d = .lt → c a d = .lt
  eq_eq : ∀ a b d, c a b = .eq → c b d = .eq → c a d = .eq
  lt_eq : ∀ a b d, c a b = .lt → c b d = .eq → c a d = .lt
  eq_lt : ∀ a b d, c a b = .eq → c b d = .lt → c a d = .lt


/-! ### Query predicate (where clause) -/

/-- JavaScript's toUpperCase, as a character-wise map. -/
def strToUpper (s : String) : String :=
  ⟨s.data.map Char.toUpper⟩

/-- The priority filter added to the where clause:
`if (params.priority && isValidPriority(params.priority.toUpperCase()))
 where.priority = params.priority.toUpperCase()` — present only when the
parameter is a non-empty string whose uppercasing is a valid priority. -/
def priorityFilter (p : TodoQueryParams) : Option Priority :=
  match p.priority with
  | none => none
  | some s => if s = "" then none else Priority.ofString (strToUpper s)

/-- The search term used by the where clause: `if (params.search)` — the
parameter when it is a non-empty string. -/
def searchFilter (p : TodoQueryParams) : Option String :=
  match p.search with
  | none => none
  | some s => if s = "" then none else some s

/-- Substring occurrence on character lists (needle occurs somewhere in
haystack). -/
def listHasSub (needle : List Char) : List Char → Bool
  | [] => needle.isEmpty
  | c :: rest => needle.isPrefixOf (c :: rest) || listHasSub needle rest

/-- Case-insensitive substring match, modelling a Prisma
`contains ... mode: 'insensitive'` condition: both sides are lowercased
character-wise and the needle must occur in the haystack. -/
def containsInsensitive (s sub : String) : Bool :=
  listHasSub (sub.data.map Char.toLower) (s.data.map Char.toLower)

/-- The search OR-branch shared by getTodos and searchTodos in
src/unnamed/part_008: case-insensitive containment of the term in the title
or in the description (a null description matches nothing). -/
def searchMatches (s : String) (t : Todo) : Bool :=
  containsInsensitive t.title s
    || (match t.description with
        | some d => containsInsensitive d s
        | none => false)

/-- The where clause of getTodos in src/unnamed/part_008 as a row predicate:
always `userId`, conjoined with the completed filter
(`where.completed = params.completed === 'true'` when the parameter is set),
the priority filter, and — when a search term is set — the search
OR-branch. -/
def matchesWhere (userId : String) (p : TodoQueryParams) (t : Todo) : Bool :=
  t.userId == userId
  && (match p.completed with
      | none => true
      | some c => t.completed == (c == "true"))
  && (match priorityFilter p with
      | none => true
      | some pr => t.priority == pr)
  && (match searchFilter p with
      | none => true
      | some s => searchMatches s t)

/-- The where clause of getTodos in src/src/services/TodoService.ts: the
same as part_008's but with no search support. -/
def matchesWhereV1 (userId : String) (p : TodoQueryParams) (t : Todo) : Bool :=
  t.userId == userId
  && (match p.completed with
      | none => true
      | some c => t.completed == (c == "true"))
  && (match priorityFilter p with
      | none => true
      | some pr => t.priority == pr)

/-! ### orderBy construction -/

/-- validSortFields in getTodos of src/src/services/TodoService.ts:
`['createdAt', 'updatedAt', 'dueDate', 'priority']`. -/
def validSortFields : List TodoSortField :=
  [.createdAt, .updatedAt, .dueDate, .priority]

/-- The database column a sort field name denotes. -/
def columnOf : TodoSortField → SortColumn
  | .createdAt => .createdAt
  | .updatedAt => .updatedAt
  | .dueDate => .dueDate
  | .priority => .priority
  | .title => .title

/-- The default sorting both getTodos revisions always append:
`{ completed: 'asc' }, { createdAt: 'desc' }`. -/
def defaultOrderBy : List OrderKey :=
  [(SortColumn.completed, SortOrder.asc), (SortColumn.createdAt, SortOrder.desc)]

/-- orderBy construction of getTodos in src/src/services/TodoService.ts:
the requested field/direction is pushed only when both are present and the
field is in validSortFields; the default sorting is always appended. -/
def buildOrderByV1 (p : TodoQueryParams) : List OrderKey :=
  (match p.sortBy, p.sortOrder with
   | some f, some o => if validSortFields.contains f then [(columnOf f, o)] else []
   | _, _ => []) ++ defaultOrderBy

/-- orderBy construction of getTodos in src/unnamed/part_008: the requested
field/direction is pushed whenever both are present (no allow-list check in
the service; the route's todoQuerySchema restricts the field to
TODO_SORT_FIELDS); the default sorting is always appended. -/
def buildOrderBy (p : TodoQueryParams) : List OrderKey :=
  (match p.sortBy, p.sortOrder with
   | some f, some o => [(columnOf f, o)]
   | _, _ => []) ++ defaultOrderBy

/-! ### Pagination envelopes -/

/-- Math.ceil(total / limit) for a positive limit (the only case the
services produce); 0 otherwise. -/
def ceilDiv (total : Nat) (limit : Int) : Int :=
  if 0 < limit then ((total : Int) + limit - 1) / limit else 0

/-- The pagination block built by createPaginatedResponse in
src/src/utils/mappers (validation.ts bundle, lines 385-405). -/
structure Pagination where
  page : Int
  limit : Int
  total : Nat
  totalPages : Int
  hasNextPage : Bool
  hasPrevPage : Bool
deriving DecidableEq

/-- The paginated envelope of getTodos in src/unnamed/part_008. -/
structure PaginatedResponse where
  success : Bool
  data : List Todo
  pagination : Pagination
deriving DecidableEq

/-- The pagination block of getTodos in src/src/services/TodoService.ts
(no hasNextPage/hasPrevPage fields in that revision). -/
structure PaginationV1 where
  page : Int
  limit : Int
  total : Nat
  totalPages : Int
deriving DecidableEq

/-- The paginated envelope of getTodos in src/src/services/TodoService.ts. -/
structure PaginatedResponseV1 where
  success : Bool
  data : List Todo
  pagination : PaginationV1
deriving DecidableEq

/-- createPaginatedResponse from the mappers utility:
totalPages = ceil(total/limit), hasNextPage = page < totalPages,
hasPrevPage = page > 1. -/
def createPaginatedResponse (data : List Todo) (page limit : Int)
    (total : Nat) : PaginatedResponse :=
  let totalPages := ceilDiv total limit
  { success := true
    data := data
    pagination :=
      { page := page, limit := limit, total := total, totalPages := totalPages
        hasNextPage := decide (page < totalPages)
        hasPrevPage := decide (1 < page) } }

/-! ### TodoService -/

/-- UpdateTodoData (src/unnamed/part_004): every field optional; an absent
field (`none`) is left out of the update entirely, while
`dueDate = some none` models a present-but-falsy due date string, which the
service turns into null. -/
structure UpdateTodoData where
  title : Option String := none
  description : Option String := none
  completed : Option Bool := none
  priority : Option Priority := none
  dueDate : Option (Option Nat) := none

/-- The field merge performed by updateTodo: each data field is written only
when the corresponding update field is present
(`if (updateData.x !== undefined) data.x = updateData.x`), and
`data.dueDate = updateData.dueDate ? new Date(updateData.dueDate) : null`. -/
def applyUpdate (u : UpdateTodoData) (t : Todo) : Todo :=
  { t with
    title := u.title.getD t.title
    description := match u.description with
      | some d => some d
      | none => t.description
    completed := u.completed.getD t.completed
    priority := u.priority.getD t.priority
    dueDate := match u.dueDate with
      | some v => v
      | none => t.dueDate }

namespace TodoService

/-- getTodoById from src/src/services/TodoService.ts (identical in
src/unnamed/part_008): `findFirst` on id AND userId; NotFoundError('Todo')
when there is no match — the same error whether the id is absent entirely
or the row belongs to a different owner. -/
def getTodoById (userId todoId : String) (store : List Todo) :
    Except AppError Todo :=
  match store.find? (fun t => t.id == todoId && t.userId == userId) with
  | some t => .ok t
  | none => .error (.notFoundError "Todo")

/-- Model of `prisma.todo.update({ where: { id: todoId }, data })`: rewrite
the row with the given id, returning the updated row; Prisma raises a
runtime error (mapped to the 500 class by the boundary handler) if no row
has the id — unreachable in the service, which checks existence first. -/
def prismaUpdateTodo (todoId : String) (u : UpdateTodoData)
    (store : List Todo) : (Except AppError Todo) × List Todo :=
  match store.find? (fun t => t.id == todoId) with
  | some t =>
      (.ok (applyUpdate u t),
        store.map (fun x => if x.id == todoId then applyUpdate u x else x))
  | none => (.error (.databaseError "Record to update not found"), store)

/-- updateTodo from src/src/services/TodoService.ts (identical in
src/unnamed/part_008): ownership check via getTodoById, then a merge-update
of only the supplied fields; the error of a failed ownership check
propagates with the store untouched. -/
def updateTodo (userId todoId : String) (u : UpdateTodoData)
    (store : List Todo) : (Except AppError Todo) × List Todo :=
  match getTodoById userId todoId store with
  | .error e => (.error e, store)
  | .ok _ => prismaUpdateTodo todoId u store

/-- deleteTodo from src/src/services/TodoService.ts (identical in
src/unnamed/part_008): ownership check via getTodoById, then
`prisma.todo.delete({ where: { id: todoId } })`. -/
def deleteTodo (userId todoId : String) (store : List Todo) :
    (Except AppError Unit) × List Todo :=
  match getTodoById userId todoId store with
  | .error e => (.error e, store)
  | .ok _ => (.ok (), store.filter (fun t => !(t.id == todoId)))

/-- toggleTodoCompletion from src/src/services/TodoService.ts (identical in
src/unnamed/part_008): read the row via getTodoById, then write back the
negated completed flag. -/
def toggleTodoCompletion (userId todoId : String) (store : List Todo) :
    (Except AppError Todo) × List Todo :=
  match getTodoById userId todoId store with
  | .error e => (.error e, store)
  | .ok t => prismaUpdateTodo todoId { completed := some (!t.completed) } store

/-- getTodosByPriority from src/src/services/TodoService.ts (identical in
src/unnamed/part_008): rows with the given userId and priority, newest
first. -/
def getTodosByPriority (userId : String) (priority : Priority)
    (store : List Todo) : List Todo :=
  applyOrderBy [(SortColumn.createdAt, SortOrder.desc)]
    (store.filter (fun t => t.userId == userId && t.priority == priority))

/-- getOverdueTodos from src/src/services/TodoService.ts (identical in
src/unnamed/part_008): rows with the given userId, not completed, and a due
date strictly before now; earliest due date first. -/
def getOverdueTodos (userId : String) (now : Nat) (store : List Todo) :
    List Todo :=
  applyOrderBy [(SortColumn.dueDate, SortOrder.asc)]
    (store.filter (fun t =>
      t.userId == userId && !t.completed
        && (match t.dueDate with
            | some d => decide (d < now)
            | none => false)))

/-- getTodos from src/src/services/TodoService.ts: filter (no search
support in this revision), order with the validSortFields allow-list,
count, and page; the envelope of this revision carries no
hasNextPage/hasPrevPage. -/
def getTodos (userId : String) (p : TodoQueryParams) (store : List Todo) :
    PaginatedResponseV1 :=
  let page := effectivePage p.page
  let limit := effectiveLimit p.limit
  let skip := (page - 1) * limit
  let matching := store.filter (matchesWhereV1 userId p)
  let todos := ((applyOrderBy (buildOrderByV1 p) matching).drop skip.toNat).take limit.toNat
  { success := true
    data := todos
    pagination :=
      { page := page, limit := limit, total := matching.length
        totalPages := ceilDiv matching.length limit } }

end TodoService

namespace TodoServiceR2

/-- getTodos from src/unnamed/part_008: filter (with the search OR clause),
order (no allow-list check in the service), count, page, and wrap with
createPaginatedResponse. -/
def getTodos (userId : String) (p : TodoQueryParams) (store : List Todo) :
    PaginatedResponse :=
  let page := effectivePage p.page
  let limit := effectiveLimit p.limit
  let skip := (page - 1) * limit
  let matching := store.filter (matchesWhere userId p)
  let todos := ((applyOrderBy (buildOrderBy p) matching).drop skip.toNat).take limit.toNat
  createPaginatedResponse todos page limit matching.length

/-- searchTodos from src/unnamed/part_008: rows with the given userId whose
title or description contains the term case-insensitively, newest first. -/
def searchTodos (userId searchTerm : String) (store : List Todo) :
    List Todo :=
  applyOrderBy [(SortColumn.createdAt, SortOrder.desc)]
    (store.filter (fun t =>
      t.userId == userId && searchMatches searchTerm t))

end TodoServiceR2

/-- A sample task owned by user A, used by the concrete witnesses. -/
def t0 : Todo :=
  ⟨"t1", "Groceries", some "Buy Milk today", false, .MEDIUM, some 10, 1, 1, "A"⟩

/-! ### Tokens, users, authentication -/

/-- JwtPayload (src/unnamed/part_004): the application claims put into a
token. -/
structure JwtPayload where
  userId : String
  email : String
deriving DecidableEq

/-- The jwt portion of the application config (src/unnamed/part_000):
secret, lifetime, issuer, audience. -/
structure JwtConfig where
  secret : String
  expiresIn : Nat
  issuer : String
  audience : String
deriving DecidableEq

/-- A decoded signed token: application payload plus the registered claims
{iat, exp, iss, aud}, and the signature modelled symbolically as the secret
that produced it (a MAC under a shared secret verifies exactly when the
verifier holds the same secret). -/
structure Token where
  payload : JwtPayload
  iat : Nat
  exp : Nat
  iss : String
  aud : String
  sig : String
deriving DecidableEq

/-- Verification failures of the token primitive: TokenExpired for an
elapsed exp, TokenInvalid for everything else (bad signature, wrong issuer
or audience). -/
inductive JwtError where
  | tokenExpired
  | tokenInvalid
deriving DecidableEq

/-- Modelled from the spec: the `jsonwebtoken` signing primitive (external
dependency, not under src/). `jwt.sign(payload, secret, {expiresIn, issuer,
audience})` produces a signed token whose claims are
{sub-payload, iat = now, exp = now + lifetime, iss, aud}. -/
def jwtSign (secret : String) (expiresIn : Nat) (issuer audience : String)
    (now : Nat) (payload : JwtPayload) : Token :=
  { payload := payload
    iat := now
    exp := now + expiresIn
    iss := issuer
    aud := audience
    sig := secret }

/-- Modelled from the spec: the `jsonwebtoken` verification primitive
(external dependency, not under src/). `jwt.verify(token, secret, {issuer,
audience})` fails with TokenInvalid on a signature, issuer or audience
mismatch, with TokenExpired once exp has elapsed, and otherwise returns the
payload. -/
def jwtVerify (secret issuer audience : String) (now : Nat) (t : Token) :
    Except JwtError JwtPayload :=
  if t.sig ≠ secret then .error .tokenInvalid
  else if t.iss ≠ issuer then .error .tokenInvalid
  else if t.aud ≠ audience then .error .tokenInvalid
  else if t.exp ≤ now then .error .tokenExpired
  else .ok t.payload

/-- generateToken from src/src/utils/jwt.ts: sign the payload with the
configured secret, lifetime, issuer and audience. -/
def generateToken (cfg : JwtConfig) (now : Nat) (payload : JwtPayload) :
    Token :=
  jwtSign cfg.secret cfg.expiresIn cfg.issuer cfg.audience now payload

/-- verifyToken from src/src/utils/jwt.ts: verify against the configured
secret, issuer and audience. -/
def verifyToken (cfg : JwtConfig) (now : Nat) (t : Token) :
    Except JwtError JwtPayload :=
  jwtVerify cfg.secret cfg.issuer cfg.audience now t

/-- Modelled from the spec: the bcrypt hashing primitive (external
dependency, not under src/; the spec treats it as a slow adaptive one-way
hash). Modelled as an injective tagging of the plain password, so that
compare(plain, hashed) holds exactly when hashed was produced from plain. -/
def bcryptHash (plain : String) : String :=
  "bcrypt12$" ++ plain

/-- validatePassword from the UserService (src/unnamed/part_009):
`bcrypt.compare(plainPassword, hashedPassword)`. -/
def validatePassword (plainPassword hashedPassword : String) : Bool :=
  hashedPassword == bcryptHash plainPassword

/-- CreateUserData (src/unnamed/part_004): registration payload. -/
structure CreateUserData where
  email : String
  password : String
  name : Option String := none

/-- UserResponseDto (the `select` of the UserService queries): id, email,
name, createdAt — never the password hash. -/
structure UserResponseDto where
  id : String
  email : String
  name : Option String
  createdAt : Nat
deriving DecidableEq

/-- LoginData (src/unnamed/part_004): login payload. -/
structure LoginData where
  email : String
  password : String

/-- AuthResponseDto: the user DTO plus the issued token. -/
structure AuthResponseDto where
  user : UserResponseDto
  token : Token
deriving DecidableEq

namespace UserService

/-- findUserByEmail from src/unnamed/part_009:
`prisma.user.findUnique({ where: { email } })`. -/
def findUserByEmail (email : String) (store : List User) : Option User :=
  store.find? (fun u => u.email == email)

/-- createUser from src/unnamed/part_009 (second revision, lines 94-118,
the one importing ConflictError): reject a duplicate email with
ConflictError('User with this email already exists'); otherwise hash the
password and insert the user (`name: userData.name || null`), returning the
DTO. The generated id and the clock are passed explicitly. -/
def createUser (userData : CreateUserData) (newId : String) (now : Nat)
    (store : List User) : (Except AppError UserResponseDto) × List User :=
  match findUserByEmail userData.email store with
  | some _ =>
      (.error (.conflictError "User with this email already exists"), store)
  | none =>
      let name := match userData.name with
        | some s => if s = "" then none else some s
        | none => none
      let u : User :=
        { id := newId, email := userData.email
          password := bcryptHash userData.password
          name := name, createdAt := now, updatedAt := now }
      (.ok { id := newId, email := userData.email, name := name
             createdAt := now },
        store ++ [u])

end UserService

namespace AuthService

/-- login from src/unnamed/part_007 (AuthService): look the user up by
email — unknown email fails AuthenticationError('Invalid credentials');
then compare the password — a mismatch fails with the very same
AuthenticationError('Invalid credentials'); on success issue a token and
return {user, token}. -/
def login (loginData : LoginData) (cfg : JwtConfig) (now : Nat)
    (store : List User) : Except AppError AuthResponseDto :=
  match UserService.findUserByEmail loginData.email store with
  | none => .error (.authenticationError "Invalid credentials")
  | some u =>
      if validatePassword loginData.password u.password then
        .ok { user := { id := u.id, email := u.email, name := u.name
                        createdAt := u.createdAt }
              token := generateToken cfg now
                { userId := u.id, email := u.email } }
      else
        .error (.authenticationError "Invalid credentials")

end AuthService

/-! ### Properties of the ordering model -/

theorem cmpOfLt_eq_lt {κ : Type} [LinearOrder κ] {x y : κ} :
    cmpOfLt x y = .lt ↔ x < y := by
  unfold cmpOfLt
  split_ifs with h1 h2 <;> simp [h1, *]

theorem cmpOfLt_eq_gt {κ : Type} [LinearOrder κ] {x y : κ} :
    cmpOfLt x y = .gt ↔ y < x := by
  unfold cmpOfLt
  split_ifs with h1 h2 <;> simp [*]
  exact le_of_lt h1

theorem cmpOfLt_eq_eq {κ : Type} [LinearOrder κ] {x y : κ} :
    cmpOfLt x y = .eq ↔ x = y := by
  unfold cmpOfLt
  split_ifs with h1 h2 <;> simp [*]
  · exact ne_of_lt h1
  · exact (ne_of_lt h2).symm
  · exact le_antisymm (not_lt.mp h2) (not_lt.mp h1)

theorem lawfulCmp_cmpOfLt {κ : Type} [LinearOrder κ] (f : Todo → κ) :
    LawfulCmp (fun a b => cmpOfLt (f a) (f b)) := by
  constructor
  · intro a b
    rcases lt_trichotomy (f a) (f b) with h | h | h
    · rw [cmpOfLt_eq_lt.mpr h, cmpOfLt_eq_gt.mpr h]
      rfl
    · rw [cmpOfLt_eq_eq.mpr h, cmpOfLt_eq_eq.mpr h.symm]
      rfl
    · rw [cmpOfLt_eq_gt.mpr h, cmpOfLt_eq_lt.mpr h]
      rfl
  · intro a b d hab hbd
    exact cmpOfLt_eq_lt.mpr (lt_trans (cmpOfLt_eq_lt.mp hab) (cmpOfLt_eq_lt.mp hbd))
  · intro a b d hab hbd
    exact cmpOfLt_eq_eq.mpr ((cmpOfLt_eq_eq.mp hab).trans (cmpOfLt_eq_eq.mp hbd))
  · intro a b d hab hbd
    exact cmpOfLt_eq_lt.mpr (cmpOfLt_eq_eq.mp hbd ▸ cmpOfLt_eq_lt.mp hab)
  · intro a b d hab hbd
    exact cmpOfLt_eq_lt.mpr (cmpOfLt_eq_eq.mp hab ▸ cmpOfLt_eq_lt.mp hbd)

theorem ordering_swap_eq_eq {o : Ordering} : o.swap = .eq ↔ o = .eq := by
  cases o <;> simp [Ordering.swap]

theorem LawfulCmp.gt_iff {c : Todo → Todo → Ordering} (hc : LawfulCmp c)
    {a b : Todo} : c a b = .gt ↔ c b a = .lt := by
  rw [hc.swap_eq a b]
  cases c b a <;> simp [Ordering.swap]

theorem LawfulCmp.swap_cmp {c : Todo → Todo → Ordering} (hc : LawfulCmp c) :
    LawfulCmp (fun a b => (c a b).swap) := by
  constructor
  · intro a b
    simp only [Ordering.swap_swap]
    rw [hc.swap_eq a b, Ordering.swap_swap]
  · intro a b d hab hbd
    simp only [Ordering.swap_eq_iff_eq_swap] at hab hbd ⊢
    simp only [Ordering.swap] at hab hbd ⊢
    exact (hc.gt_iff).mpr (hc.lt_lt d b a ((hc.gt_iff).mp hbd) ((hc.gt_iff).mp hab))
  · intro a b d hab hbd
    simp only [Ordering.swap_eq_iff_eq_swap] at hab hbd ⊢
    simp only [Ordering.swap] at hab hbd ⊢
    exact hc.eq_eq a b d hab hbd
  · intro a b d hab hbd
    simp only [Ordering.swap_eq_iff_eq_swap] at hab hbd ⊢
    simp only [Ordering.swap] at hab hbd ⊢
    have hba : c b a = .lt := (hc.gt_iff).mp hab
    have hdb : c d b = .eq := by
      have hsw := hc.swap_eq b d
      rw [hbd] at hsw
      exact ordering_swap_eq_eq.mp hsw.symm
    exact (hc.gt_iff).mpr (hc.eq_lt d b a hdb hba)
  · intro a b d hab hbd
    simp only [Ordering.swap_eq_iff_eq_swap] at hab hbd ⊢
    simp only [Ordering.swap] at hab hbd ⊢
    have hdb : c d b = .lt := (hc.gt_iff).mp hbd
    have hba : c b a = .eq := by
      have hsw := hc.swap_eq a b
      rw [hab] at hsw
      exact ordering_swap_eq_eq.mp hsw.symm
    exact (hc.gt_iff).mpr (hc.lt_eq d b a hdb hba)

theorem LawfulCmp.then_cmp {c₁ c₂ : Todo → Todo → Ordering}
    (h1 : LawfulCmp c₁) (h2 : LawfulCmp c₂) :
    LawfulCmp (fun a b => (c₁ a b).then (c₂ a b)) := by
  constructor
  · intro a b
    rw [h1.swap_eq a b, h2.swap_eq a b, Ordering.swap_then]
  · intro a b d hab hbd
    rw [Ordering.then_eq_lt] at hab hbd ⊢
    rcases hab with hab | ⟨hab, hab2⟩ <;> rcases hbd with hbd | ⟨hbd, hbd2⟩
    · exact Or.inl (h1.lt_lt a b d hab hbd)
    · exact Or.inl (h1.lt_eq a b d hab hbd)
    · exact Or.inl (h1.eq_lt a b d hab hbd)
    · exact Or.inr ⟨h1.eq_eq a b d hab hbd, h2.lt_lt a b d hab2 hbd2⟩
  · intro a b d hab hbd
    rw [Ordering.then_eq_eq] at hab hbd ⊢
    exact ⟨h1.eq_eq a b d hab.1 hbd.1, h2.eq_eq a b d hab.2 hbd.2⟩
  · intro a b d hab hbd
    rw [Ordering.then_eq_lt] at hab ⊢
    rw [Ordering.then_eq_eq] at hbd
    rcases hab with hab | ⟨hab, hab2⟩
    · exact Or.inl (h1.lt_eq a b d hab hbd.1)
    · exact Or.inr ⟨h1.eq_eq a b d hab hbd.1, h2.lt_eq a b d hab2 hbd.2⟩
  · intro a b d hab hbd
    rw [Ordering.then_eq_eq] at hab
    rw [Ordering.then_eq_lt] at hbd ⊢
    rcases hbd with hbd | ⟨hbd, hbd2⟩
    · exact Or.inl (h1.eq_lt a b d hab.1 hbd)
    · exact Or.inr ⟨h1.eq_eq a b d hab.1 hbd, h2.eq_lt a b d hab.2 hbd2⟩

theorem lawfulCmp_cmpColumn (c : SortColumn) : LawfulCmp (cmpColumn c) := by
  cases c
  · exact lawfulCmp_cmpOfLt (fun t => t.createdAt)
  · exact lawfulCmp_cmpOfLt (fun t => t.updatedAt)
  · exact lawfulCmp_cmpOfLt (fun t => nullsLastKey t.dueDate)
  · exact lawfulCmp_cmpOfLt (fun t => t.priority.val)
  · exact lawfulCmp_cmpOfLt (fun t => t.title)
  · exact lawfulCmp_cmpOfLt (fun t => t.completed)

theorem lawfulCmp_cmpKey (k : OrderKey) : LawfulCmp (cmpKey k) := by
  unfold cmpKey
  match k with
  | (c, .asc) => exact lawfulCmp_cmpColumn c
  | (c, .desc) => exact (lawfulCmp_cmpColumn c).swap_cmp

theorem lawfulCmp_cmpChain (ks : List OrderKey) : LawfulCmp (cmpChain ks) := by
  induction ks with
  | nil =>
      constructor <;> intro a b <;> simp [cmpChain, Ordering.swap]
  | cons k rest ih =>
      exact (lawfulCmp_cmpKey k).then_cmp ih

theorem chainLe_trans (ks : List OrderKey) :
    ∀ a b d, chainLe ks a b → chainLe ks b d → chainLe ks a d := by
  intro a b d hab hbd
  have hc := lawfulCmp_cmpChain ks
  unfold chainLe at hab hbd ⊢
  intro had
  have hda : cmpChain ks d a = .lt := hc.gt_iff.mp had
  match h1 : cmpChain ks a b, h2 : cmpChain ks b d with
  | .gt, _ => exact hab h1
  | _, .gt => exact hbd h2
  | .lt, .lt => exact absurd (hc.lt_lt a b d h1 h2) (by rw [had]; simp)
  | .lt, .eq => exact absurd (hc.lt_eq a b d h1 h2) (by rw [had]; simp)
  | .eq, .lt => exact absurd (hc.eq_lt a b d h1 h2) (by rw [had]; simp)
  | .eq, .eq => exact absurd (hc.eq_eq a b d h1 h2) (by rw [had]; simp)

theorem chainLe_total (ks : List OrderKey) :
    ∀ a b, chainLe ks a b ∨ chainLe ks b a := by
  intro a b
  have hc := lawfulCmp_cmpChain ks
  by_cases h : cmpChain ks a b = .gt
  · right
    unfold chainLe
    rw [hc.gt_iff.mp h]
    simp
  · exact Or.inl h

/-- The ordered result set is pairwise ordered by the orderBy chain. -/
theorem pairwise_applyOrderBy (ks : List OrderKey) (l : List Todo) :
    (applyOrderBy ks l).Pairwise (chainLe ks) := by
  haveI : IsTotal Todo (chainLe ks) := ⟨chainLe_total ks⟩
  haveI : IsTrans Todo (chainLe ks) := ⟨chainLe_trans ks⟩
  exact List.sorted_insertionSort (chainLe ks) l

/-- Ordering the result set does not change which rows are in it. -/
theorem mem_applyOrderBy {ks : List OrderKey} {l : List Todo} {t : Todo} :
    t ∈ applyOrderBy ks l ↔ t ∈ l :=
  List.mem_insertionSort (chainLe ks)

/-- Ordering the result set does not change its size. -/
theorem length_applyOrderBy (ks : List OrderKey) (l : List Todo) :
    (applyOrderBy ks l).length = l.length :=
  List.length_insertionSort (chainLe ks) l

/-! ## Claim theorems -/

/-- C7: verifying a token freshly issued for a subject — before the
configured lifetime elapses and under the same configured secret, issuer
and audience — succeeds and returns a payload whose userId and email equal
the subject's. -/
theorem c7_token_round_trip (cfg : JwtConfig) (p : JwtPayload)
    (now now' : Nat) (h : now' < now + cfg.expiresIn) :
    verifyToken cfg now' (generateToken cfg now p) = .ok p
    ∧ ∀ q, verifyToken cfg now' (generateToken cfg now p) = .ok q →
        q.userId = p.userId ∧ q.email = p.email := by
  have hok : verifyToken cfg now' (generateToken cfg now p) = .ok p := by
    have hlive : ¬(now + cfg.expiresIn ≤ now') := by omega
    simp [verifyToken, generateToken, jwtVerify, jwtSign, hlive]
  refine ⟨hok, fun q hq => ?_⟩
  rw [hok] at hq
  cases hq
  exact ⟨rfl, rfl⟩

/-- Witness for C7 at a concrete subject, clock and configuration. -/
theorem c7_token_round_trip_witness :
    (100 : Nat) < 50 + 604800
    ∧ verifyToken ⟨"s3cret", 604800, "todo-api", "todo-app"⟩ 100
        (generateToken ⟨"s3cret", 604800, "todo-api", "todo-app"⟩ 50
          ⟨"user-1", "a@b.c"⟩)
        = .ok ⟨"user-1", "a@b.c"⟩ :=
  ⟨by norm_num,
    (c7_token_round_trip ⟨"s3cret", 604800, "todo-api", "todo-app"⟩
      ⟨"user-1", "a@b.c"⟩ 50 100 (by norm_num)).1⟩

/-- C4 fails as stated: a requested limit of 0 is not raised to 1 — the
service computes `Math.min(0, 100) = 0` and uses 0 as the effective limit. -/
theorem c4_counterexample :
    effectiveLimit (some 0) = 0
    ∧ ¬(1 ≤ effectiveLimit (some 0))
    ∧ (TodoServiceR2.getTodos "u" { limit := some 0 } []).pagination.limit = 0
    ∧ (TodoService.getTodos "u" { limit := some 0 } []).pagination.limit = 0 := by
  refine ⟨by decide, by decide, ?_, ?_⟩ <;> rfl

/-- C4 amended: the effective limit of getTodos is `min(requested, 100)` —
clamped from above at 100, defaulting to 10 when absent, and used verbatim
when the request is within [1,100] — but it is not clamped from below: a
requested limit under 1 passes through unchanged (the query-validation
layer, not the service, is what rejects such requests). -/
theorem c4_limit_clamp :
    (∀ l : Int, effectiveLimit (some l) = min l 100)
    ∧ effectiveLimit none = 10
    ∧ (∀ l : Int, 100 < l → effectiveLimit (some l) = 100)
    ∧ (∀ l : Int, 1 ≤ l → l ≤ 100 → effectiveLimit (some l) = l)
    ∧ (∀ userId p store,
        (TodoServiceR2.getTodos userId p store).pagination.limit
            = effectiveLimit p.limit
        ∧ (TodoService.getTodos userId p store).pagination.limit
            = effectiveLimit p.limit) := by
  refine ⟨fun l => rfl, rfl, fun l hl => ?_, fun l h1 h2 => ?_,
    fun userId p store => ⟨rfl, rfl⟩⟩
  · show min (Option.getD (some l) 10) 100 = 100
    simp only [Option.getD]
    omega
  · show min (Option.getD (some l) 10) 100 = l
    simp only [Option.getD]
    omega

/-- Witness for C4 amended: limit 150 is clamped to 100, limit 7 is used
as requested, an absent limit defaults to 10. -/
theorem c4_limit_clamp_witness :
    effectiveLimit (some 150) = 100
    ∧ effectiveLimit (some 7) = 7
    ∧ effectiveLimit none = 10 :=
  ⟨c4_limit_clamp.2.2.1 150 (by norm_num),
    c4_limit_clamp.2.2.2.1 7 (by norm_num) (by norm_num),
    c4_limit_clamp.2.1⟩

/-- C9: login with wrong credentials fails with
AuthenticationError('Invalid credentials') and returns no token, and the
resulting value is literally the same whether no user has the email or the
user exists with a different password — the two failures are
indistinguishable to the caller. -/
theorem c9_login_indistinguishable
    (store₁ store₂ : List User) (ld₁ ld₂ : LoginData)
    (cfg₁ cfg₂ : JwtConfig) (now₁ now₂ : Nat) (u : User)
    (h₁ : UserService.findUserByEmail ld₁.email store₁ = none)
    (h₂ : UserService.findUserByEmail ld₂.email store₂ = some u)
    (h₃ : u.password ≠ bcryptHash ld₂.password) :
    AuthService.login ld₁ cfg₁ now₁ store₁
        = .error (.authenticationError "Invalid credentials")
    ∧ AuthService.login ld₂ cfg₂ now₂ store₂
        = .error (.authenticationError "Invalid credentials")
    ∧ AuthService.login ld₁ cfg₁ now₁ store₁
        = AuthService.login ld₂ cfg₂ now₂ store₂
    ∧ ∀ r, AuthService.login ld₂ cfg₂ now₂ store₂ ≠ .ok r := by
  have e₁ : AuthService.login ld₁ cfg₁ now₁ store₁
      = .error (.authenticationError "Invalid credentials") := by
    unfold AuthService.login
    rw [h₁]
  have e₂ : AuthService.login ld₂ cfg₂ now₂ store₂
      = .error (.authenticationError "Invalid credentials") := by
    unfold AuthService.login
    rw [h₂]
    simp [validatePassword, h₃]
  exact ⟨e₁, e₂, e₁.trans e₂.symm, fun r hr => by rw [e₂] at hr; cases hr⟩

/-- Witness for C9: an empty store with any email, and a one-user store
with a wrong password, produce the same AuthenticationError. -/
theorem c9_login_indistinguishable_witness :
    UserService.findUserByEmail "a@b.c" []
        = (none : Option User)
    ∧ UserService.findUserByEmail "a@b.c"
        [⟨"u1", "a@b.c", bcryptHash "right", none, 0, 0⟩]
        = some ⟨"u1", "a@b.c", bcryptHash "right", none, 0, 0⟩
    ∧ (⟨"u1", "a@b.c", bcryptHash "right", none, 0, 0⟩ : User).password
        ≠ bcryptHash "wrong"
    ∧ AuthService.login ⟨"a@b.c", "whatever"⟩ ⟨"s", 1, "i", "a"⟩ 0 []
        = AuthService.login ⟨"a@b.c", "wrong"⟩ ⟨"s", 1, "i", "a"⟩ 0
            [⟨"u1", "a@b.c", bcryptHash "right", none, 0, 0⟩] := by
  refine ⟨rfl, by decide, by decide, ?_⟩
  exact (c9_login_indistinguishable [] [⟨"u1", "a@b.c", bcryptHash "right", none, 0, 0⟩]
    ⟨"a@b.c", "whatever"⟩ ⟨"a@b.c", "wrong"⟩ ⟨"s", 1, "i", "a"⟩ ⟨"s", 1, "i", "a"⟩ 0 0
    ⟨"u1", "a@b.c", bcryptHash "right", none, 0, 0⟩ rfl (by decide) (by decide)).2.2.1

/-- createUser on a store already holding the email: the duplicate check
fires and nothing is written. -/
theorem createUser_of_found (d : CreateUserData) (newId : String) (now : Nat)
    (store : List User) (u : User)
    (h : UserService.findUserByEmail d.email store = some u) :
    UserService.createUser d newId now store
      = (.error (.conflictError "User with this email already exists"), store) := by
  unfold UserService.createUser
  rw [h]

/-- createUser on a store not holding the email: the user is appended and a
DTO returned. -/
theorem createUser_of_not_found (d : CreateUserData) (newId : String)
    (now : Nat) (store : List User)
    (h : UserService.findUserByEmail d.email store = none) :
    ∃ dto u, UserService.createUser d newId now store = (.ok dto, store ++ [u])
      ∧ u.email = d.email := by
  unfold UserService.createUser
  rw [h]
  exact ⟨_, _, rfl, rfl⟩

/-- C8: with a store holding no user under the email, a first registration
succeeds and appends the user, and a second registration with the same
email fails with ConflictError — the 409 category — leaving the store
unchanged. -/
theorem c8_duplicate_registration
    (store : List User) (e pw₁ pw₂ : String) (n₁ n₂ : Option String)
    (id₁ id₂ : String) (t₁ t₂ : Nat)
    (h : ∀ u ∈ store, u.email ≠ e) :
    (∃ dto, (UserService.createUser ⟨e, pw₁, n₁⟩ id₁ t₁ store).1 = .ok dto)
    ∧ (UserService.createUser ⟨e, pw₂, n₂⟩ id₂ t₂
          (UserService.createUser ⟨e, pw₁, n₁⟩ id₁ t₁ store).2).1
        = .error (.conflictError "User with this email already exists")
    ∧ (UserService.createUser ⟨e, pw₂, n₂⟩ id₂ t₂
          (UserService.createUser ⟨e, pw₁, n₁⟩ id₁ t₁ store).2).2
        = (UserService.createUser ⟨e, pw₁, n₁⟩ id₁ t₁ store).2
    ∧ (AppError.conflictError "User with this email already exists").statusCode
        = 409 := by
  have hnone : UserService.findUserByEmail e store = none := by
    unfold UserService.findUserByEmail
    rw [List.find?_eq_none]
    intro u hu
    simp only [beq_iff_eq]
    exact h u hu
  obtain ⟨dto, u₁, hfst, hue⟩ :=
    createUser_of_not_found ⟨e, pw₁, n₁⟩ id₁ t₁ store hnone
  have hfind : UserService.findUserByEmail e
      (UserService.createUser ⟨e, pw₁, n₁⟩ id₁ t₁ store).2 = some u₁ := by
    rw [hfst]
    unfold UserService.findUserByEmail
    rw [List.find?_append]
    unfold UserService.findUserByEmail at hnone
    rw [hnone]
    simp [hue]
  have hsnd := createUser_of_found ⟨e, pw₂, n₂⟩ id₂ t₂
    (UserService.createUser ⟨e, pw₁, n₁⟩ id₁ t₁ store).2 u₁ hfind
  exact ⟨⟨dto, by rw [hfst]⟩, by rw [hsnd], by rw [hsnd], rfl⟩

/-- Witness for C8: two registrations of a@b.c against an initially empty
store; the second fails with the 409 conflict and adds nothing. -/
theorem c8_duplicate_registration_witness :
    (∃ dto, (UserService.createUser ⟨"a@b.c", "pw1", none⟩ "id1" 1 []).1 = .ok dto)
    ∧ (UserService.createUser ⟨"a@b.c", "pw2", none⟩ "id2" 2
          (UserService.createUser ⟨"a@b.c", "pw1", none⟩ "id1" 1 []).2).1
        = .error (.conflictError "User with this email already exists")
    ∧ (UserService.createUser ⟨"a@b.c", "pw2", none⟩ "id2" 2
          (UserService.createUser ⟨"a@b.c", "pw1", none⟩ "id1" 1 []).2).2
        = (UserService.createUser ⟨"a@b.c", "pw1", none⟩ "id1" 1 []).2 :=
  let r := c8_duplicate_registration [] "a@b.c" "pw1" "pw2" none none
    "id1" "id2" 1 2 (by intro u hu; cases hu)
  ⟨r.1, r.2.1, r.2.2.1⟩

/-- C2: when no task has the requested id, or a task has it but belongs to
a different owner, getTodoById fails with NotFoundError('Todo') — the very
same error value in both cases, and a value distinct from every
AuthorizationError — and updateTodo, deleteTodo and toggleTodoCompletion,
which all run getTodoById first, fail the same way leaving the store
unchanged. -/
theorem c2_notfound_uniform
    (store : List Todo) (owner tid : String) (u : UpdateTodoData)
    (h : (∀ t ∈ store, t.id ≠ tid) ∨ (∀ t ∈ store, t.id = tid → t.userId ≠ owner)) :
    TodoService.getTodoById owner tid store = .error (.notFoundError "Todo")
    ∧ TodoService.updateTodo owner tid u store
        = (.error (.notFoundError "Todo"), store)
    ∧ TodoService.deleteTodo owner tid store
        = (.error (.notFoundError "Todo"), store)
    ∧ TodoService.toggleTodoCompletion owner tid store
        = (.error (.notFoundError "Todo"), store)
    ∧ ∀ m, (AppError.notFoundError "Todo") ≠ .authorizationError m := by
  have hfind : store.find? (fun t => t.id == tid && t.userId == owner) = none := by
    rw [List.find?_eq_none]
    intro t ht
    rcases h with h | h
    · simp [h t ht]
    · intro hc
      rw [Bool.and_eq_true, beq_iff_eq, beq_iff_eq] at hc
      exact h t ht hc.1 hc.2
  have hbyId : TodoService.getTodoById owner tid store
      = .error (.notFoundError "Todo") := by
    unfold TodoService.getTodoById
    rw [hfind]
  refine ⟨hbyId, ?_, ?_, ?_, fun m hc => by cases hc⟩
  · unfold TodoService.updateTodo
    rw [hbyId]
  · unfold TodoService.deleteTodo
    rw [hbyId]
  · unfold TodoService.toggleTodoCompletion
    rw [hbyId]

/-- Witness for C2: a one-task store owned by A, queried by B under the
task's real id (owned-by-other case) — every operation fails with the same
NotFoundError and writes nothing. -/
theorem c2_notfound_uniform_witness :
    TodoService.getTodoById "B" "t1"
        [⟨"t1", "x", none, false, .MEDIUM, none, 1, 1, "A"⟩]
        = .error (.notFoundError "Todo")
    ∧ TodoService.deleteTodo "B" "t1"
        [⟨"t1", "x", none, false, .MEDIUM, none, 1, 1, "A"⟩]
        = (.error (.notFoundError "Todo"),
            [⟨"t1", "x", none, false, .MEDIUM, none, 1, 1, "A"⟩]) :=
  let r := c2_notfound_uniform
    [⟨"t1", "x", none, false, .MEDIUM, none, 1, 1, "A"⟩] "B" "t1" {}
    (Or.inr (by intro t ht hid; cases ht with
      | head => decide
      | tail _ ht' => cases ht'))
  ⟨r.1, r.2.2.1⟩

/-- An empty update payload merges nothing: every field keeps its value. -/
theorem applyUpdate_empty (t : Todo) : applyUpdate {} t = t := rfl

/-- find? returns the unique element satisfying the predicate. -/
theorem find?_eq_some_of_unique {p : Todo → Bool} {store : List Todo}
    {t : Todo} (hmem : t ∈ store) (hpt : p t = true)
    (huniq : ∀ x ∈ store, p x = true → x = t) :
    store.find? p = some t := by
  induction store with
  | nil => cases hmem
  | cons a rest ih =>
      by_cases ha : p a = true
      · rw [List.find?_cons_of_pos _ ha, huniq a (List.mem_cons_self a rest) ha]
      · rw [List.find?_cons_of_neg _ (by simpa using ha)]
        rcases List.mem_cons.mp hmem with rfl | hmem'
        · exact absurd hpt ha
        · exact ih hmem' (fun x hx hpx => huniq x (List.mem_cons_of_mem a hx) hpx)

/-- C10 (implicit): updating an owned task with a payload in which every
recognized field is absent does not raise ValidationError; it succeeds,
changes no field of the task (title, description, completed, priority,
dueDate — indeed nothing at all), leaves the store unchanged and returns
the task. -/
theorem c10_empty_update_noop
    (store : List Todo) (owner tid : String) (t : Todo)
    (hmem : t ∈ store) (hid : t.id = tid) (hown : t.userId = owner)
    (huniq : ∀ x ∈ store, x.id = tid → x = t) :
    TodoService.updateTodo owner tid {} store = (.ok t, store)
    ∧ (∀ t', TodoService.updateTodo owner tid {} store = (.ok t', store) →
        t'.title = t.title ∧ t'.description = t.description
          ∧ t'.completed = t.completed ∧ t'.priority = t.priority
          ∧ t'.dueDate = t.dueDate)
    ∧ ∀ m, (TodoService.updateTodo owner tid {} store).1
        ≠ .error (.validationError m) := by
  have hfind1 : store.find? (fun x => x.id == tid && x.userId == owner)
      = some t :=
    find?_eq_some_of_unique hmem (by simp [hid, hown])
      (fun x hx hpx => huniq x hx (by
        rw [Bool.and_eq_true, beq_iff_eq] at hpx
        exact hpx.1))
  have hfind2 : store.find? (fun x => x.id == tid) = some t :=
    find?_eq_some_of_unique hmem (by simp [hid])
      (fun x hx hpx => huniq x hx (by rwa [beq_iff_eq] at hpx))
  have hmain : TodoService.updateTodo owner tid {} store = (.ok t, store) := by
    unfold TodoService.updateTodo TodoService.getTodoById
      TodoService.prismaUpdateTodo
    rw [hfind1, hfind2]
    simp only [applyUpdate_empty, ite_self, List.map_id']
  refine ⟨hmain, fun t' ht' => ?_, fun m hc => ?_⟩
  · rw [hmain] at ht'
    have htt : t = t' := Except.ok.inj (congrArg Prod.fst ht')
    cases htt
    exact ⟨rfl, rfl, rfl, rfl, rfl⟩
  · rw [hmain] at hc
    cases hc

/-- Witness for C10: an empty update of an owned one-task store succeeds
and changes nothing. -/
theorem c10_empty_update_noop_witness :
    TodoService.updateTodo "A" "t1" {}
        [⟨"t1", "x", none, false, .MEDIUM, none, 1, 1, "A"⟩]
      = (.ok ⟨"t1", "x", none, false, .MEDIUM, none, 1, 1, "A"⟩,
        [⟨"t1", "x", none, false, .MEDIUM, none, 1, 1, "A"⟩]) :=
  (c10_empty_update_noop
    [⟨"t1", "x", none, false, .MEDIUM, none, 1, 1, "A"⟩] "A" "t1"
    ⟨"t1", "x", none, false, .MEDIUM, none, 1, 1, "A"⟩
    (List.mem_singleton.mpr rfl) rfl rfl
    (fun _ hx _ => List.mem_singleton.mp hx)).1

/-- C1: a task owned by A is never returned to a different identity B by
any read path — getTodos under any query parameters, getTodoById,
getTodosByPriority, getOverdueTodos, or searchTodos — because every one of
their predicates conjoins `userId = B`. -/
theorem c1_ownership_isolation
    (store : List Todo) (a b : String) (p : TodoQueryParams)
    (pr : Priority) (now : Nat) (term tid : String) (t : Todo)
    (ht : t.userId = a) (hab : a ≠ b) :
    t ∉ (TodoServiceR2.getTodos b p store).data
    ∧ (∀ t', TodoService.getTodoById b tid store = .ok t' → t' ≠ t)
    ∧ t ∉ TodoService.getTodosByPriority b pr store
    ∧ t ∉ TodoService.getOverdueTodos b now store
    ∧ t ∉ TodoServiceR2.searchTodos b term store := by
  have howner : ∀ pred : Todo → Bool,
      (∀ x, pred x = true → x.userId = b) → t ∈ store.filter pred → False := by
    intro pred hp hmem
    exact hab (ht ▸ hp t (List.mem_filter.mp hmem).2)
  refine ⟨?_, ?_, ?_, ?_, ?_⟩
  · intro hmem
    have h1 : t ∈ store.filter (matchesWhere b p) := by
      have h2 := List.take_subset _ _ hmem
      have h3 := List.drop_subset _ _ h2
      exact mem_applyOrderBy.mp h3
    refine howner (matchesWhere b p) (fun x hx => ?_) h1
    unfold matchesWhere at hx
    simp only [Bool.and_eq_true, beq_iff_eq] at hx
    exact hx.1.1.1
  · intro t' hok htt
    unfold TodoService.getTodoById at hok
    cases hfind : store.find? (fun x => x.id == tid && x.userId == b) with
    | none => rw [hfind] at hok; cases hok
    | some s =>
        rw [hfind] at hok
        cases hok
        have hs := List.find?_some hfind
        simp only [Bool.and_eq_true, beq_iff_eq] at hs
        exact hab (ht ▸ (htt ▸ hs.2 : t.userId = b))
  · refine fun hmem => howner _ (fun x hx => ?_) (mem_applyOrderBy.mp hmem)
    simp only [Bool.and_eq_true, beq_iff_eq] at hx
    exact hx.1
  · refine fun hmem => howner _ (fun x hx => ?_) (mem_applyOrderBy.mp hmem)
    simp only [Bool.and_eq_true, beq_iff_eq] at hx
    exact hx.1.1
  · refine fun hmem => howner _ (fun x hx => ?_) (mem_applyOrderBy.mp hmem)
    simp only [Bool.and_eq_true, beq_iff_eq] at hx
    exact hx.1

/-- Witness for C1: owner A's task is invisible to owner B on every read
path, at concrete inputs. -/
theorem c1_ownership_isolation_witness :
    t0 ∉ (TodoServiceR2.getTodos "B" {} [t0]).data
    ∧ (∀ t', TodoService.getTodoById "B" "t1" [t0] = .ok t' → t' ≠ t0)
    ∧ t0 ∉ TodoService.getTodosByPriority "B" .MEDIUM [t0]
    ∧ t0 ∉ TodoService.getOverdueTodos "B" 100 [t0]
    ∧ t0 ∉ TodoServiceR2.searchTodos "B" "x" [t0] :=
  c1_ownership_isolation [t0] "A" "B" {} .MEDIUM 100 "x" "t1" t0 rfl
    (by decide)

/-- C6: with a non-empty search term set and no completed/priority filter,
the rows getTodos counts in total are exactly the requesting owner's rows
whose title or description contains the term case-insensitively; every
returned row is such a row, and on the (default) first page with the total
within the effective limit, every such row is returned. -/
theorem c6_search_matches
    (store : List Todo) (userId term : String) (p : TodoQueryParams)
    (hs : p.search = some term) (hne : term ≠ "")
    (hcm : p.completed = none) (hpr : p.priority = none) :
    (TodoServiceR2.getTodos userId p store).pagination.total
        = (store.filter (fun t => t.userId == userId && searchMatches term t)).length
    ∧ (∀ t ∈ (TodoServiceR2.getTodos userId p store).data,
        t.userId = userId ∧ searchMatches term t = true)
    ∧ (p.page = none →
        ((store.filter (fun t => t.userId == userId && searchMatches term t)).length : Int)
            ≤ effectiveLimit p.limit →
        ∀ t ∈ store, t.userId = userId → searchMatches term t = true →
          t ∈ (TodoServiceR2.getTodos userId p store).data) := by
  have hpred : ∀ t : Todo, matchesWhere userId p t
      = (t.userId == userId && searchMatches term t) := by
    intro t
    unfold matchesWhere priorityFilter searchFilter
    rw [hs, hcm, hpr]
    simp [hne]
  have hfilter : store.filter (matchesWhere userId p)
      = store.filter (fun t => t.userId == userId && searchMatches term t) :=
    List.filter_congr (fun a _ => hpred a)
  have hdata : (TodoServiceR2.getTodos userId p store).data
      = ((applyOrderBy (buildOrderBy p)
            (store.filter (matchesWhere userId p))).drop
          (((effectivePage p.page - 1) * effectiveLimit p.limit).toNat)).take
          (effectiveLimit p.limit).toNat := rfl
  have htotal : (TodoServiceR2.getTodos userId p store).pagination.total
      = (store.filter (matchesWhere userId p)).length := rfl
  refine ⟨by rw [htotal, hfilter], fun t hmem => ?_, fun hpage hle t hmem hu hsm => ?_⟩
  · rw [hdata] at hmem
    have h1 := mem_applyOrderBy.mp (List.drop_subset _ _ (List.take_subset _ _ hmem))
    have h2 := (List.mem_filter.mp h1).2
    rw [hpred] at h2
    rw [Bool.and_eq_true, beq_iff_eq] at h2
    exact ⟨h2.1, h2.2⟩
  · rw [hdata]
    have hskip : ((effectivePage p.page - 1) * effectiveLimit p.limit).toNat = 0 := by
      rw [show effectivePage p.page = 1 by rw [effectivePage, hpage]; rfl]
      simp
    rw [hskip, List.drop_zero]
    have hlen : (applyOrderBy (buildOrderBy p)
        (store.filter (matchesWhere userId p))).length
        ≤ (effectiveLimit p.limit).toNat := by
      rw [length_applyOrderBy, hfilter]
      omega
    rw [List.take_of_length_le hlen]
    exact mem_applyOrderBy.mpr (List.mem_filter.mpr
      ⟨hmem, by rw [hpred, Bool.and_eq_true, beq_iff_eq]; exact ⟨hu, hsm⟩⟩)

/-- Witness for C6: searching "milk" finds the task whose description
contains "Milk" — total is 1 and the task is returned. -/
theorem c6_search_matches_witness :
    (TodoServiceR2.getTodos "A" { search := some "milk" } [t0]).pagination.total
        = ([t0].filter (fun t => t.userId == "A" && searchMatches "milk" t)).length
    ∧ ([t0].filter (fun t => t.userId == "A" && searchMatches "milk" t)).length = 1
    ∧ t0 ∈ (TodoServiceR2.getTodos "A" { search := some "milk" } [t0]).data :=
  let r := c6_search_matches [t0] "A" "milk" { search := some "milk" }
    rfl (by decide) rfl rfl
  ⟨r.1, by decide,
    r.2.2 rfl (by decide) t0 (List.mem_singleton.mpr rfl) rfl (by decide)⟩

/-- C3: for page ≥ 1 and effective limit ≥ 1, getTodos reports a total
equal to the number of the owner's rows matching the filters — unchanged
under any page/limit — returns
`min(limit, max(0, total − (page−1)·limit))` items (hence never more than
limit), and computes totalPages as the integer ceiling of total/limit
(characterized by `limit·(totalPages−1) < total ≤ limit·totalPages`),
hasNextPage as page < totalPages, and hasPrevPage as page > 1. -/
theorem c3_pagination_shape
    (store : List Todo) (userId : String) (p : TodoQueryParams)
    (hp : 1 ≤ effectivePage p.page) (hL : 1 ≤ effectiveLimit p.limit) :
    (TodoServiceR2.getTodos userId p store).pagination.total
        = (store.filter (matchesWhere userId p)).length
    ∧ (∀ p2 l2, (TodoServiceR2.getTodos userId
          { p with page := p2, limit := l2 } store).pagination.total
        = (TodoServiceR2.getTodos userId p store).pagination.total)
    ∧ ((TodoServiceR2.getTodos userId p store).data.length : Int)
        = min (effectiveLimit p.limit)
            (max 0 ((((store.filter (matchesWhere userId p)).length : Int))
              - (effectivePage p.page - 1) * effectiveLimit p.limit))
    ∧ ((TodoServiceR2.getTodos userId p store).data.length : Int)
        ≤ effectiveLimit p.limit
    ∧ (effectiveLimit p.limit
          * ((TodoServiceR2.getTodos userId p store).pagination.totalPages - 1)
        < ((TodoServiceR2.getTodos userId p store).pagination.total : Int)
      ∧ ((TodoServiceR2.getTodos userId p store).pagination.total : Int)
        ≤ effectiveLimit p.limit
          * (TodoServiceR2.getTodos userId p store).pagination.totalPages)
    ∧ (TodoServiceR2.getTodos userId p store).pagination.hasNextPage
        = decide (effectivePage p.page
          < (TodoServiceR2.getTodos userId p store).pagination.totalPages)
    ∧ (TodoServiceR2.getTodos userId p store).pagination.hasPrevPage
        = decide (1 < effectivePage p.page) := by
  have hdata : (TodoServiceR2.getTodos userId p store).data
      = ((applyOrderBy (buildOrderBy p)
            (store.filter (matchesWhere userId p))).drop
          (((effectivePage p.page - 1) * effectiveLimit p.limit).toNat)).take
          (effectiveLimit p.limit).toNat := rfl
  have hlen : (TodoServiceR2.getTodos userId p store).data.length
      = min (effectiveLimit p.limit).toNat
          ((store.filter (matchesWhere userId p)).length
            - ((effectivePage p.page - 1) * effectiveLimit p.limit).toNat) := by
    rw [hdata, List.length_take, List.length_drop, length_applyOrderBy]
  have hS : 0 ≤ (effectivePage p.page - 1) * effectiveLimit p.limit :=
    mul_nonneg (by omega) (by omega)
  have htp : (TodoServiceR2.getTodos userId p store).pagination.totalPages
      = ceilDiv (store.filter (matchesWhere userId p)).length
          (effectiveLimit p.limit) := rfl
  refine ⟨rfl, fun p2 l2 => rfl, ?_, ?_, ?_, rfl, rfl⟩
  · rw [hlen]
    set S := (effectivePage p.page - 1) * effectiveLimit p.limit with hSdef
    set L := effectiveLimit p.limit with hLdef
    set T := (store.filter (matchesWhere userId p)).length with hTdef
    omega
  · rw [hlen]
    set S := (effectivePage p.page - 1) * effectiveLimit p.limit with hSdef
    set L := effectiveLimit p.limit with hLdef
    omega
  · have htot : (TodoServiceR2.getTodos userId p store).pagination.total
        = (store.filter (matchesWhere userId p)).length := rfl
    rw [htp, htot]
    set T := (store.filter (matchesWhere userId p)).length with hTdef
    set L := effectiveLimit p.limit with hLdef
    unfold ceilDiv
    rw [if_pos (show (0 : Int) < L by omega)]
    set Q := ((T : Int) + L - 1) / L with hQ
    have hmul : L * (Q - 1) = L * Q - L := by ring
    rw [hmul]
    have hdm : L * Q + ((T : Int) + L - 1) % L = (T : Int) + L - 1 := by
      rw [hQ]
      exact Int.ediv_add_emod _ _
    have hm0 : 0 ≤ ((T : Int) + L - 1) % L := Int.emod_nonneg _ (by omega)
    have hmL : ((T : Int) + L - 1) % L < L := Int.emod_lt_of_pos _ (by omega)
    set M := L * Q with hM
    set R := ((T : Int) + L - 1) % L with hR
    exact ⟨by omega, by omega⟩

/-- Witness for C3 at spec scenario 2 scaled down: 5 matching tasks,
page 2 and limit 2 — items 3–4 are returned (2 items), totalPages is 3,
hasNextPage and hasPrevPage both hold. -/
theorem c3_pagination_shape_witness :
    ((TodoServiceR2.getTodos "A" { page := some 2, limit := some 2 }
        (List.range 5 |>.map (fun i =>
          ⟨toString i, "t", none, false, .MEDIUM, none, i, i, "A"⟩))).data.length : Int)
        = 2
    ∧ (TodoServiceR2.getTodos "A" { page := some 2, limit := some 2 }
        (List.range 5 |>.map (fun i =>
          ⟨toString i, "t", none, false, .MEDIUM, none, i, i, "A"⟩))).pagination.totalPages
        = 3
    ∧ (TodoServiceR2.getTodos "A" { page := some 2, limit := some 2 }
        (List.range 5 |>.map (fun i =>
          ⟨toString i, "t", none, false, .MEDIUM, none, i, i, "A"⟩))).pagination.hasNextPage
        = true
    ∧ (TodoServiceR2.getTodos "A" { page := some 2, limit := some 2 }
        (List.range 5 |>.map (fun i =>
          ⟨toString i, "t", none, false, .MEDIUM, none, i, i, "A"⟩))).pagination.hasPrevPage
        = true := by
  have h := c3_pagination_shape
    (List.range 5 |>.map (fun i =>
      ⟨toString i, "t", none, false, .MEDIUM, none, i, i, "A"⟩))
    "A" { page := some 2, limit := some 2 } (by decide) (by decide)
  refine ⟨?_, by decide, by decide, by decide⟩
  rw [h.2.2.1]
  decide

/-- C5 fails as stated, in two ways. First, 'title' is accepted by the
query schema's allow-list but is missing from the service's validSortFields,
so a title sort is ignored: two incomplete tasks with titles "b" (newer)
and "a" (older) come back newest-first — ["b", "a"] — not in ascending
title order. Second, the tiebreak is not newest-first: under a priority
sort with equal priorities, an incomplete older task precedes a completed
newer one. -/
theorem c5_counterexample :
    (TodoService.getTodos "u"
        { sortBy := some .title, sortOrder := some .asc }
        [⟨"1", "b", none, false, .MEDIUM, none, 20, 20, "u"⟩,
         ⟨"2", "a", none, false, .MEDIUM, none, 10, 10, "u"⟩]).data
      = [⟨"1", "b", none, false, .MEDIUM, none, 20, 20, "u"⟩,
         ⟨"2", "a", none, false, .MEDIUM, none, 10, 10, "u"⟩]
    ∧ ("a" : String) < "b"
    ∧ (TodoService.getTodos "u"
        { sortBy := some .priority, sortOrder := some .asc }
        [⟨"3", "t", none, true, .MEDIUM, none, 30, 30, "u"⟩,
         ⟨"4", "t", none, false, .MEDIUM, none, 10, 10, "u"⟩]).data
      = [⟨"4", "t", none, false, .MEDIUM, none, 10, 10, "u"⟩,
         ⟨"3", "t", none, true, .MEDIUM, none, 30, 30, "u"⟩] := by
  refine ⟨by decide, ?_, by decide⟩
  rw [String.lt_iff_toList_lt]
  decide

/-- C5 amended: when sort field and order are both given and the field is
in the service allow-list validSortFields = {createdAt, updatedAt, dueDate,
priority} — which does not include title — getTodos orders by that
field/direction with the stable tiebreak incomplete-before-completed then
newest-first; for title, or when either parameter is absent, the default
order (incomplete first, then newest first) applies. -/
theorem c5_sort_allowlist
    (store : List Todo) (userId : String) (p : TodoQueryParams) :
    (∀ f o, p.sortBy = some f → p.sortOrder = some o →
      f ∈ validSortFields →
      (TodoService.getTodos userId p store).data.Pairwise
        (chainLe ((columnOf f, o) :: defaultOrderBy)))
    ∧ ((p.sortBy = some .title ∨ p.sortBy = none ∨ p.sortOrder = none) →
      (TodoService.getTodos userId p store).data.Pairwise
        (chainLe defaultOrderBy)) := by
  have hsub : (TodoService.getTodos userId p store).data.Sublist
      (applyOrderBy (buildOrderByV1 p)
        (store.filter (matchesWhereV1 userId p))) := by
    have hdata : (TodoService.getTodos userId p store).data
        = ((applyOrderBy (buildOrderByV1 p)
              (store.filter (matchesWhereV1 userId p))).drop
            (((effectivePage p.page - 1) * effectiveLimit p.limit).toNat)).take
            (effectiveLimit p.limit).toNat := rfl
    rw [hdata]
    exact (List.take_sublist _ _).trans (List.drop_sublist _ _)
  constructor
  · intro f o hsb hso hf
    have hcontains : validSortFields.contains f = true := by
      have hfour : f = .createdAt ∨ f = .updatedAt ∨ f = .dueDate
          ∨ f = .priority := by
        simpa [validSortFields] using hf
      rcases hfour with rfl | rfl | rfl | rfl <;> rfl
    have hchain : buildOrderByV1 p = (columnOf f, o) :: defaultOrderBy := by
      unfold buildOrderByV1
      rw [hsb, hso]
      show (if validSortFields.contains f = true
          then [(columnOf f, o)] else []) ++ defaultOrderBy
        = (columnOf f, o) :: defaultOrderBy
      rw [if_pos hcontains]
      rfl
    have hpw := pairwise_applyOrderBy (buildOrderByV1 p)
      (store.filter (matchesWhereV1 userId p))
    rw [hchain] at hpw hsub
    exact hpw.sublist hsub
  · intro hdef
    have hchain : buildOrderByV1 p = defaultOrderBy := by
      rcases hdef with hsb | hsb | hso
      · cases hso : p.sortOrder with
        | none =>
            unfold buildOrderByV1
            rw [hsb, hso]
            show ([] : List OrderKey) ++ defaultOrderBy = defaultOrderBy
            rfl
        | some o =>
            unfold buildOrderByV1
            rw [hsb, hso]
            show (if validSortFields.contains TodoSortField.title = true
                then [(columnOf .title, o)] else []) ++ defaultOrderBy
              = defaultOrderBy
            rw [if_neg (by decide)]
            rfl
      · unfold buildOrderByV1
        rw [hsb]
        show ([] : List OrderKey) ++ defaultOrderBy = defaultOrderBy
        rfl
      · unfold buildOrderByV1
        rw [hso]
        cases p.sortBy <;> rfl
    have hpw := pairwise_applyOrderBy (buildOrderByV1 p)
      (store.filter (matchesWhereV1 userId p))
    rw [hchain] at hpw hsub
    exact hpw.sublist hsub

/-- Witness for C5 amended: a createdAt-ascending query comes back pairwise
ordered by createdAt with the incomplete-first/newest-first tiebreak. -/
theorem c5_sort_allowlist_witness :
    TodoSortField.createdAt ∈ validSortFields
    ∧ (TodoService.getTodos "A"
        { sortBy := some .createdAt, sortOrder := some .asc }
        [t0]).data.Pairwise
        (chainLe ((SortColumn.createdAt, SortOrder.asc) :: defaultOrderBy)) :=
  ⟨by decide,
    (c5_sort_allowlist [t0] "A"
      { sortBy := some .createdAt, sortOrder := some .asc }).1
      .createdAt .asc rfl rfl (by decide)⟩

end TodoApi
